import Mathlib

/-!
Verification of the cluster-manager optimization/analysis engine against its
specification. Numeric quantities are modelled over ℚ. The UI code under
`cluster_manager/ui` (optimization.tsx, api.ts) is embedded directly; the
backend analysis engine (EfficiencyCalculator, rule evaluators, aggregators,
trend computation) is not part of the source tree, so those components are
modelled from the specification, as noted on each definition.
-/

/-! ## Efficiency score (spec §4.1, docs/DATA_DICTIONARY.md "Efficiency Score") -/

/-- Clamp a rational to the interval `[0, 100]`. -/
def clampScore (x : ℚ) : ℚ := max 0 (min 100 x)

/-- Modelled from the spec: the backend EfficiencyCalculator is absent from the
source tree. Per §3/§4.1 and docs/DATA_DICTIONARY.md: `potential =
capacity-units * uptime-hours` (uptime clamped to ≥ 0), score is
`consumed / potential * 100` clamped to `[0,100]`, and `none` when the
potential is zero. -/
def efficiencyScore (capacity consumed uptime : ℚ) : Option ℚ :=
  let up := max 0 uptime
  let potential := capacity * up
  if potential = 0 then none
  else some (clampScore (consumed / potential * 100))

theorem clampScore_nonneg (x : ℚ) : 0 ≤ clampScore x := le_max_left 0 _

theorem clampScore_le_100 (x : ℚ) : clampScore x ≤ 100 := by
  unfold clampScore
  rcases le_total 0 (min 100 x) with h | h
  · rw [max_eq_right h]; exact min_le_left _ _
  · rw [max_eq_left h]; norm_num

/-! ## Compounded savings (spec §3, §4.3; EntityAnalysis / ClusterCostAnalysis) -/

/-- Modelled from the spec: the backend RecommendationAggregator is absent from
the source tree. Per §3, the aggregate savings percentage over findings with
savings `s₁…sₙ` is `100 * (1 - ∏ (1 - sᵢ/100))` (multiplicative compounding). -/
def compoundedSavings (savings : List ℚ) : ℚ :=
  100 * (1 - (savings.map (fun s => 1 - s / 100)).prod)

theorem list_prod_pos {l : List ℚ} (h : ∀ a ∈ l, 0 < a) : 0 < l.prod := by
  induction l with
  | nil => simp
  | cons x xs ih =>
    rw [List.prod_cons]
    exact mul_pos (h x (List.mem_cons_self x xs))
      (ih fun a ha => h a (List.mem_cons_of_mem x ha))

/-! ## Efficiency badge (optimization.tsx lines 84-97, source under src/) -/

/-- Badge colors used by the dashboard's EfficiencyBadge component. -/
inductive BadgeColor where
  | red
  | yellow
  | green
deriving DecidableEq

/-- Embedding of `EfficiencyBadge` (optimization.tsx): green by default,
red when `score < 30`, yellow when `30 ≤ score < 50`. -/
def efficiencyBadgeColor (score : ℚ) : BadgeColor :=
  if score < 30 then .red
  else if score < 50 then .yellow
  else .green

/-! ## Cost tab average savings (optimization.tsx lines 2999-3043) -/

/-- One cost-optimization recommendation, as declared in api.ts
(`CostOptimizationRecommendation`); only the fields the verified UI code
reads are carried. -/
structure CostOptimizationRecommendation where
  category : String
  estimated_savings_percent : ℚ
  severity : String

/-- Per-cluster cost analysis, as declared in api.ts (`ClusterCostAnalysis`);
only the fields the verified UI code reads are carried. -/
structure ClusterCostAnalysis where
  cluster_name : String
  uses_spot_instances : Bool
  total_recommendations : ℕ
  total_potential_savings_percent : ℚ
  recommendations : List CostOptimizationRecommendation

/-- Embedding of the cost tab's "Avg Potential Savings" stat
(optimization.tsx): the stats block renders only under the guard
`costData && costData.length > 0`; inside it the value is
`costData.reduce((sum, c) => sum + c.total_potential_savings_percent, 0) / costData.length`.
`none` models the guard's fall-through branches (loading / no data). -/
def costTabAvgSavings (costData : Option (List ClusterCostAnalysis)) : Option ℚ :=
  match costData with
  | none => none
  | some l =>
      if 0 < l.length then
        some ((l.map (fun c => c.total_potential_savings_percent)).sum / (l.length : ℚ))
      else none

/-! ## Claim theorems (first group) -/

/-- C1: for every (capacity, consumed, uptime) triple, with uptime clamped to
be non-negative: the score is `none` exactly when `potential =
capacity * max 0 uptime` is zero, and otherwise it equals
`consumed / potential * 100` clamped to `[0,100]`, hence lies in `[0,100]`
and is never negative. -/
theorem efficiency_score_bounds (capacity consumed uptime : ℚ) :
    (efficiencyScore capacity consumed uptime = none ↔ capacity * max 0 uptime = 0) ∧
    (∀ s, efficiencyScore capacity consumed uptime = some s →
      s = clampScore (consumed / (capacity * max 0 uptime) * 100) ∧ 0 ≤ s ∧ s ≤ 100) := by
  constructor
  · unfold efficiencyScore
    by_cases h : capacity * max 0 uptime = 0 <;> simp [h]
  · intro s hs
    unfold efficiencyScore at hs
    by_cases h : capacity * max 0 uptime = 0
    · simp [h] at hs
    · simp only [h, if_false, Option.some.injEq] at hs
      exact ⟨hs.symm, hs ▸ clampScore_nonneg _, hs ▸ clampScore_le_100 _⟩

/-- Witness for C1: the theorem applied at capacity 2, consumed 1, uptime 3
(the score of that concrete input is `50/3`, inside `[0,100]`). -/
theorem efficiency_score_bounds_witness :
    efficiencyScore 2 1 3 = some (50 / 3) ∧ 0 ≤ (50 / 3 : ℚ) ∧ (50 / 3 : ℚ) ≤ 100 := by
  have h : efficiencyScore 2 1 3 = some (50 / 3) := by
    unfold efficiencyScore clampScore; norm_num
  exact ⟨h, ((efficiency_score_bounds 2 1 3).2 (50 / 3) h).2⟩

/-- C2: for savings values each in `[0,100]`, the compounded total equals
`100 * (1 - ∏ (1 - sᵢ/100))` by definition, never exceeds 100, and is
strictly below 100 whenever every sᵢ is strictly below 100. -/
theorem compounded_savings_bounds (savings : List ℚ)
    (h : ∀ s ∈ savings, 0 ≤ s ∧ s ≤ 100) :
    compoundedSavings savings = 100 * (1 - (savings.map (fun s => 1 - s / 100)).prod) ∧
    compoundedSavings savings ≤ 100 ∧
    ((∀ s ∈ savings, s < 100) → compoundedSavings savings < 100) := by
  refine ⟨rfl, ?_, ?_⟩
  · have hp : 0 ≤ (savings.map (fun s => 1 - s / 100)).prod := by
      apply List.prod_nonneg
      intro a ha
      rcases List.mem_map.mp ha with ⟨s, hs, rfl⟩
      have := (h s hs).2
      linarith
    unfold compoundedSavings
    nlinarith
  · intro hlt
    have hp : 0 < (savings.map (fun s => 1 - s / 100)).prod := by
      apply list_prod_pos
      intro a ha
      rcases List.mem_map.mp ha with ⟨s, hs, rfl⟩
      have := hlt s hs
      linarith
    unfold compoundedSavings
    nlinarith

/-- Witness for C2: the theorem applied to the savings list `[50, 50]`, whose
compounded total is 75. -/
theorem compounded_savings_bounds_witness :
    compoundedSavings [50, 50] ≤ 100 ∧ compoundedSavings [50, 50] < 100 :=
  ⟨(compounded_savings_bounds [50, 50] (by norm_num)).2.1,
   (compounded_savings_bounds [50, 50] (by norm_num)).2.2 (by norm_num)⟩

/-- C9: the badge classification is three-way and exhaustive with boundaries
resolved upward: red iff `score < 30`, yellow iff `30 ≤ score < 50`, green iff
`50 ≤ score`; in particular the badge at exactly 30 is yellow and at exactly
50 is green. -/
theorem efficiency_badge_thresholds (score : ℚ) :
    (efficiencyBadgeColor score = .red ↔ score < 30) ∧
    (efficiencyBadgeColor score = .yellow ↔ 30 ≤ score ∧ score < 50) ∧
    (efficiencyBadgeColor score = .green ↔ 50 ≤ score) ∧
    efficiencyBadgeColor 30 = .yellow ∧ efficiencyBadgeColor 50 = .green := by
  refine ⟨?_, ?_, ?_, by unfold efficiencyBadgeColor; norm_num,
    by unfold efficiencyBadgeColor; norm_num⟩
  · constructor
    · intro h
      unfold efficiencyBadgeColor at h
      split_ifs at h with h1 h2
      exact h1
    · intro h
      unfold efficiencyBadgeColor
      simp [h]
  · constructor
    · intro h
      unfold efficiencyBadgeColor at h
      split_ifs at h with h1 h2
      exact ⟨not_lt.mp h1, h2⟩
    · intro h
      unfold efficiencyBadgeColor
      rw [if_neg (not_lt.mpr h.1), if_pos h.2]
  · constructor
    · intro h
      unfold efficiencyBadgeColor at h
      split_ifs at h with h1 h2
      exact not_lt.mp h2
    · intro h
      unfold efficiencyBadgeColor
      rw [if_neg (not_lt.mpr (by linarith)), if_neg (not_lt.mpr h)]

/-- C10: the "Avg Potential Savings" division is reachable only under the
rendering guard `costData && costData.length > 0`: whenever the stat is
produced, the underlying list is nonempty (so the divisor is nonzero) and the
value is the sum of `total_potential_savings_percent` divided by the length;
with no data or an empty list, no division happens at all. -/
theorem cost_tab_avg_savings_guard :
    (∀ l r, costTabAvgSavings (some l) = some r →
      0 < l.length ∧ (l.length : ℚ) ≠ 0 ∧
      r = (l.map (fun c => c.total_potential_savings_percent)).sum / (l.length : ℚ)) ∧
    costTabAvgSavings none = none ∧
    costTabAvgSavings (some []) = none := by
  refine ⟨?_, rfl, rfl⟩
  intro l r hr
  unfold costTabAvgSavings at hr
  by_cases h : 0 < l.length
  · simp only [h, if_true, Option.some.injEq] at hr
    refine ⟨h, ?_, hr.symm⟩
    have hq : (0 : ℚ) < l.length := by exact_mod_cast h
    exact ne_of_gt hq
  · simp [h] at hr

/-- Witness for C10: the theorem applied to a one-element list with savings 40;
the stat evaluates to 40 and the divisor is 1. -/
theorem cost_tab_avg_savings_guard_witness :
    0 < [ClusterCostAnalysis.mk "c1" false 1 40 []].length ∧
    ((([ClusterCostAnalysis.mk "c1" false 1 40 []]).length : ℚ) ≠ 0) := by
  have h := cost_tab_avg_savings_guard.1 [ClusterCostAnalysis.mk "c1" false 1 40 []] 40
    (by unfold costTabAvgSavings; norm_num)
  exact ⟨h.1, h.2.1⟩

/-! ## Trend aggregation (spec §4.4; api.ts TrendDataPoint / TrendSummary) -/

/-- Modelled from the spec: the backend TrendAggregator is absent from the
source tree. The trailing window of values ending at index `i`: the last
`min (i+1) W` elements of `xs.take (i+1)` (ℕ subtraction clamps the start of
the window at 0 when fewer than `W` prior points exist). -/
def windowSlice (W : ℕ) (xs : List ℚ) (i : ℕ) : List ℚ :=
  (xs.take (i + 1)).drop (i + 1 - W)

/-- Modelled from the spec: trailing simple moving average at index `i` over
window size `W` — the sum of the trailing window divided by its length. -/
def movingAvg (W : ℕ) (xs : List ℚ) (i : ℕ) : ℚ :=
  (windowSlice W xs i).sum / ((windowSlice W xs i).length : ℚ)

/-- Modelled from the spec (§4.4): the trend direction compares the most
recent moving-average value with the one from `W` days earlier (clamped to the
start of the series when the series is shorter), "improving" when the current
value is greater than or equal to the prior one, "declining" otherwise. -/
def trendDirection (W : ℕ) (ma : List ℚ) : String :=
  if ma.getD (ma.length - 1 - W) 0 ≤ ma.getD (ma.length - 1) 0 then "improving"
  else "declining"

/-- One per-date aggregated input point for the trend computation (all
entities' snapshots for that date already summarized). -/
structure DailyAgg where
  date : String
  total_clusters : ℕ
  oversized_count : ℕ
  underutilized_count : ℕ
  avg_efficiency : ℚ
  total_dbu : ℚ

/-- One output trend point, as declared in api.ts (`TrendDataPoint`); the
fields the claims are about. -/
structure TrendDataPoint where
  date : String
  avg_efficiency : ℚ
  total_dbu : ℚ
  efficiency_moving_avg : ℚ
  dbu_moving_avg : ℚ

/-- Trend summary, as declared in api.ts (`TrendSummary`). -/
structure TrendSummaryR where
  period_days : ℕ
  moving_avg_window : ℕ
  data_points : ℕ
  current_efficiency : Option ℚ
  efficiency_trend : Option String
  message : Option String

/-- Trends response shape, as declared in api.ts (`UtilizationTrends`). -/
structure UtilizationTrends where
  summary : TrendSummaryR
  trends : List TrendDataPoint

/-- Modelled from the spec: the backend `trends(days, moving_avg_window)`
endpoint is absent from the source tree. It restricts the daily series to the
requested number of days, returns the explicit insufficient-data result when
the restriction is empty (days = 0, no entities, or no snapshots), and
otherwise emits one TrendDataPoint per date with trailing moving averages plus
the trend-direction classification. -/
def computeTrends (days W : ℕ) (daily : List DailyAgg) : UtilizationTrends :=
  let window := daily.take days
  if window.isEmpty then
    { summary := { period_days := days, moving_avg_window := W, data_points := 0,
                   current_efficiency := none, efficiency_trend := none,
                   message := some "insufficient data" },
      trends := [] }
  else
    let effs := window.map (fun d => d.avg_efficiency)
    let dbus := window.map (fun d => d.total_dbu)
    let points := (List.range window.length).map (fun i =>
      { date := (window.getD i ⟨"", 0, 0, 0, 0, 0⟩).date
        avg_efficiency := effs.getD i 0
        total_dbu := dbus.getD i 0
        efficiency_moving_avg := movingAvg W effs i
        dbu_moving_avg := movingAvg W dbus i : TrendDataPoint })
    let ma := points.map (fun p => p.efficiency_moving_avg)
    { summary := { period_days := days, moving_avg_window := W,
                   data_points := window.length,
                   current_efficiency := some (ma.getD (ma.length - 1) 0),
                   efficiency_trend := some (trendDirection W ma),
                   message := none },
      trends := points }

/-! ## Claim theorems (trend group) -/

/-- C3: for every series and window `W ≥ 1`, the moving average at position
`i < length` is the arithmetic mean of the `min (i+1) W` most recent values
ending at `i` (the trailing window has exactly that length, so the average is
over however many points are available, always defined); for `W = 1` the
moving average equals the raw series value at `i`. -/
theorem moving_avg_spec (W : ℕ) (xs : List ℚ) (i : ℕ)
    (hW : 1 ≤ W) (hi : i < xs.length) :
    (windowSlice W xs i).length = min (i + 1) W ∧
    movingAvg W xs i = (windowSlice W xs i).sum / ((min (i + 1) W : ℕ) : ℚ) ∧
    (W = 1 → movingAvg W xs i = xs.getD i 0) := by
  have hlen : (windowSlice W xs i).length = min (i + 1) W := by
    unfold windowSlice
    rw [List.length_drop, List.length_take]
    omega
  refine ⟨hlen, by rw [movingAvg, hlen], ?_⟩
  intro hW1
  subst hW1
  have hslice : windowSlice 1 xs i = [xs.get ⟨i, hi⟩] := by
    unfold windowSlice
    rw [List.drop_take]
    have h1 : i + 1 - (i + 1 - 1) = 1 := by omega
    have h2 : i + 1 - 1 = i := by omega
    rw [h2]
    have h3 : i + 1 - i = 1 := by omega
    rw [h3]
    exact List.take_one_drop_eq_of_lt_length hi
  rw [movingAvg, hslice]
  simp [List.getD_eq_getElem?_getD, List.getElem?_eq_getElem hi]

/-- C4: for every nonempty moving-average series, the trend classification is
deterministic: "improving" exactly when the most recent moving-average value
is greater than or equal to the value from `W` days earlier, and "declining"
exactly otherwise (no hysteresis band). -/
theorem trend_direction_spec (W : ℕ) (ma : List ℚ) (h : 0 < ma.length) :
    (trendDirection W ma = "improving" ↔
      ma.getD (ma.length - 1 - W) 0 ≤ ma.getD (ma.length - 1) 0) ∧
    (trendDirection W ma = "declining" ↔
      ma.getD (ma.length - 1) 0 < ma.getD (ma.length - 1 - W) 0) := by
  have hne : ("improving" : String) ≠ "declining" := by decide
  unfold trendDirection
  by_cases hle : ma.getD (ma.length - 1 - W) 0 ≤ ma.getD (ma.length - 1) 0
  · rw [if_pos hle]
    exact ⟨⟨fun _ => hle, fun _ => rfl⟩,
      ⟨fun hc => absurd hc hne, fun hlt => absurd hle (not_le.mpr hlt)⟩⟩
  · rw [if_neg hle]
    exact ⟨⟨fun hc => absurd hc.symm hne.symm.symm, fun hc => absurd hc hle⟩,
      ⟨fun _ => not_le.mp hle, fun _ => rfl⟩⟩

/-- Witness for C4: the theorem applied to the series `[1, 2]` with `W = 1`;
the current value 2 is at least the prior value 1, so the classification is
"improving". -/
theorem trend_direction_spec_witness :
    trendDirection 1 [(1 : ℚ), 2] = "improving" :=
  (trend_direction_spec 1 [(1 : ℚ), 2] (by norm_num)).1.mpr (by norm_num)

/-- Witness for C3: the theorem applied to the series `[1, 2, 3]` with
`W = 2` at position 1; the trailing window is `[1, 2]` of length
`min 2 2 = 2`. -/
theorem moving_avg_spec_witness :
    (windowSlice 2 [(1 : ℚ), 2, 3] 1).length = min 2 2 ∧
    movingAvg 2 [(1 : ℚ), 2, 3] 1 =
      (windowSlice 2 [(1 : ℚ), 2, 3] 1).sum / ((min 2 2 : ℕ) : ℚ) :=
  ⟨(moving_avg_spec 2 [(1 : ℚ), 2, 3] 1 (by norm_num) (by norm_num)).1,
   (moving_avg_spec 2 [(1 : ℚ), 2, 3] 1 (by norm_num) (by norm_num)).2.1⟩

/-- C6: when the requested period is zero days, or there are no entities or
snapshots (an empty daily series), the trend computation returns the explicit
empty result: an empty trend list, zero data points, a summary message
"insufficient data", and no trend classification; being a total function, it
raises no exception and performs no division. -/
theorem compute_trends_empty (days W : ℕ) (daily : List DailyAgg)
    (h : days = 0 ∨ daily = []) :
    (computeTrends days W daily).trends = [] ∧
    (computeTrends days W daily).summary.data_points = 0 ∧
    (computeTrends days W daily).summary.message = some "insufficient data" ∧
    (computeTrends days W daily).summary.efficiency_trend = none := by
  have hwin : daily.take days = [] := by
    rcases h with h | h <;> simp [h]
  unfold computeTrends
  simp [hwin]

/-- Witness for C6: the theorem applied at `days = 0` with a nonempty daily
series. -/
theorem compute_trends_empty_witness :
    (computeTrends 0 7 [⟨"2024-01-01", 1, 0, 0, 50, 10⟩]).trends = [] ∧
    (computeTrends 0 7 [⟨"2024-01-01", 1, 0, 0, 50, 10⟩]).summary.data_points = 0 ∧
    (computeTrends 0 7 [⟨"2024-01-01", 1, 0, 0, 50, 10⟩]).summary.message =
      some "insufficient data" ∧
    (computeTrends 0 7 [⟨"2024-01-01", 1, 0, 0, 50, 10⟩]).summary.efficiency_trend =
      none :=
  compute_trends_empty 0 7 [⟨"2024-01-01", 1, 0, 0, 50, 10⟩] (Or.inl rfl)

/-! ## Snapshot store and collection pass (spec §3, §4.1, §6;
api.ts useCollectMetrics) -/

/-- A daily snapshot row, keyed by (entity_id, date) (spec §3 DailySnapshot). -/
structure DailySnapshot where
  entity_id : String
  date : String
  capacity_units : ℚ
  consumed_units : ℚ
  uptime_hours : ℚ
  worker_count : ℕ
deriving DecidableEq

/-- The (entity_id, date) key of a snapshot row. -/
def snapKey (s : DailySnapshot) : String × String := (s.entity_id, s.date)

/-- Modelled from the spec: the SnapshotStore collaborator is external to the
source tree. A tabular store as a list of rows; `upsert` overwrites the row
with the same (entity_id, date) key in place when one exists, otherwise
appends the new row (idempotent upsert, spec §4.1). -/
def upsert (store : List DailySnapshot) (s : DailySnapshot) : List DailySnapshot :=
  if ∃ t ∈ store, snapKey t = snapKey s then
    store.map (fun t => if snapKey t = snapKey s then s else t)
  else store ++ [s]

/-- The store invariant: at most one row per (entity_id, date) key. -/
def KeyUnique (store : List DailySnapshot) : Prop := (store.map snapKey).Nodup

/-- The store holds the row `s` and no other row with its key. -/
def HasExactly (store : List DailySnapshot) (s : DailySnapshot) : Prop :=
  (∀ t ∈ store, snapKey t = snapKey s → t = s) ∧ ∃ t ∈ store, snapKey t = snapKey s

/-- One entity's raw usage input to a collection pass (spec §4.1). -/
structure EntityUsage where
  entity_id : String
  capacity_units : ℚ
  consumed_units : ℚ
  uptime_hours : ℚ
  worker_count : ℕ

/-- Modelled from the spec: the EfficiencyCalculator's snapshot construction
for one entity and one date (spec §4.1). -/
def computeSnapshot (e : EntityUsage) (date : String) : DailySnapshot :=
  ⟨e.entity_id, date, e.capacity_units, e.consumed_units, e.uptime_hours,
   e.worker_count⟩

/-- Modelled from the spec: `collect_and_persist()` (spec §6) computes every
entity's snapshot for the given date and upserts each into the store. -/
def collect_and_persist (entities : List EntityUsage) (date : String)
    (store : List DailySnapshot) : List DailySnapshot :=
  entities.foldl (fun st e => upsert st (computeSnapshot e date)) store

theorem snapKey_upsert_map (store : List DailySnapshot) (s : DailySnapshot)
    (hex : ∃ t ∈ store, snapKey t = snapKey s) :
    (store.map (fun t => if snapKey t = snapKey s then s else t)).map snapKey =
      store.map snapKey := by
  rw [List.map_map]
  apply List.map_congr_left
  intro t _
  by_cases h : snapKey t = snapKey s
  · simp [Function.comp, h]
  · simp [Function.comp, h]

theorem keyUnique_upsert (store : List DailySnapshot) (s : DailySnapshot)
    (h : KeyUnique store) : KeyUnique (upsert store s) := by
  unfold upsert
  split_ifs with hex
  · unfold KeyUnique
    rw [snapKey_upsert_map store s hex]
    exact h
  · unfold KeyUnique
    rw [List.map_append]
    rw [List.nodup_append]
    refine ⟨h, List.nodup_singleton _, ?_⟩
    intro k hk hks
    simp only [List.map_cons, List.map_nil, List.mem_singleton] at hks
    subst hks
    rcases List.mem_map.mp hk with ⟨t, ht, hkey⟩
    exact hex ⟨t, ht, hkey⟩

theorem hasExactly_upsert_self (store : List DailySnapshot) (s : DailySnapshot) :
    HasExactly (upsert store s) s := by
  unfold upsert
  split_ifs with hex
  · constructor
    · intro t ht hk
      rcases List.mem_map.mp ht with ⟨u, hu, hfu⟩
      by_cases h : snapKey u = snapKey s
      · rw [← hfu]
        simp only [h, if_true]
      · rw [← hfu] at hk ⊢
        simp only [h, if_false] at hk
    · rcases hex with ⟨u, hu, hk⟩
      refine ⟨s, List.mem_map.mpr ⟨u, hu, ?_⟩, rfl⟩
      simp only [hk, if_true]
  · constructor
    · intro t ht hk
      rcases List.mem_append.mp ht with h | h
      · exact absurd ⟨t, h, hk⟩ hex
      · simpa using h
    · exact ⟨s, List.mem_append.mpr (Or.inr (List.mem_singleton_self s)), rfl⟩

theorem hasExactly_upsert_other (store : List DailySnapshot) (s a : DailySnapshot)
    (hne : snapKey s ≠ snapKey a) (h : HasExactly store a) :
    HasExactly (upsert store s) a := by
  obtain ⟨hall, u, hu, huk⟩ := h
  unfold upsert
  split_ifs with hex
  · constructor
    · intro t ht hk
      rcases List.mem_map.mp ht with ⟨v, hv, rfl⟩
      by_cases hvk : snapKey v = snapKey s
      · simp only [hvk, if_true] at hk
        exact absurd hk hne
      · simp only [hvk, if_false] at hk ⊢
        exact hall v hv hk
    · refine ⟨u, List.mem_map.mpr ⟨u, hu, ?_⟩, huk⟩
      have hus : snapKey u ≠ snapKey s := by
        rw [huk]; exact fun hc => hne hc.symm
      simp only [hus, if_false]
  · exact ⟨fun t ht hk => by
      rcases List.mem_append.mp ht with h | h
      · exact hall t h hk
      · have : t = s := by simpa using h
        subst this
        exact absurd hk hne,
      ⟨u, List.mem_append.mpr (Or.inl hu), huk⟩⟩

theorem upsert_absorb (store : List DailySnapshot) (s : DailySnapshot)
    (h : HasExactly store s) : upsert store s = store := by
  obtain ⟨hall, hex⟩ := h
  unfold upsert
  rw [if_pos hex]
  have : ∀ t ∈ store, (if snapKey t = snapKey s then s else t) = t := by
    intro t ht
    by_cases hk : snapKey t = snapKey s
    · rw [if_pos hk, hall t ht hk]
    · rw [if_neg hk]
  calc store.map (fun t => if snapKey t = snapKey s then s else t)
      = store.map id := List.map_congr_left fun t ht => this t ht
    _ = store := List.map_id store

theorem hasExactly_foldl_upsert (snaps : List DailySnapshot)
    (st : List DailySnapshot) (a : DailySnapshot)
    (hne : ∀ b ∈ snaps, snapKey b ≠ snapKey a) (h : HasExactly st a) :
    HasExactly (snaps.foldl upsert st) a := by
  induction snaps generalizing st with
  | nil => exact h
  | cons s rest ih =>
    simp only [List.foldl_cons]
    exact ih (upsert st s)
      (fun b hb => hne b (List.mem_cons_of_mem s hb))
      (hasExactly_upsert_other st s a (hne s (List.mem_cons_self s rest)) h)

theorem hasExactly_all_after_foldl (snaps : List DailySnapshot)
    (st : List DailySnapshot) (hnd : (snaps.map snapKey).Nodup) :
    ∀ a ∈ snaps, HasExactly (snaps.foldl upsert st) a := by
  induction snaps generalizing st with
  | nil => intro a ha; cases ha
  | cons s rest ih =>
    intro a ha
    simp only [List.map_cons, List.nodup_cons] at hnd
    rcases List.mem_cons.mp ha with rfl | ha
    · simp only [List.foldl_cons]
      apply hasExactly_foldl_upsert rest (upsert st a) a
      · intro b hb hk
        exact hnd.1 (hk ▸ List.mem_map_of_mem snapKey hb)
      · exact hasExactly_upsert_self st a
    · simp only [List.foldl_cons]
      exact ih (upsert st s) hnd.2 a ha

theorem foldl_upsert_absorb (snaps : List DailySnapshot)
    (st : List DailySnapshot) (h : ∀ a ∈ snaps, HasExactly st a) :
    snaps.foldl upsert st = st := by
  induction snaps with
  | nil => rfl
  | cons s rest ih =>
    simp only [List.foldl_cons]
    rw [upsert_absorb st s (h s (List.mem_cons_self s rest))]
    exact ih fun a ha => h a (List.mem_cons_of_mem s ha)

theorem keyUnique_foldl_upsert (snaps : List DailySnapshot)
    (st : List DailySnapshot) (h : KeyUnique st) :
    KeyUnique (snaps.foldl upsert st) := by
  induction snaps generalizing st with
  | nil => exact h
  | cons s rest ih =>
    simp only [List.foldl_cons]
    exact ih (upsert st s) (keyUnique_upsert st s h)

theorem collect_eq_foldl (entities : List EntityUsage) (date : String)
    (store : List DailySnapshot) :
    collect_and_persist entities date store =
      (entities.map (fun e => computeSnapshot e date)).foldl upsert store := by
  unfold collect_and_persist
  rw [List.foldl_map]

/-- C5: running `collect_and_persist` twice for the same date with unchanged
inputs yields a store state identical to running it once — no duplicate rows,
values unchanged — and the pass preserves the invariant of at most one
snapshot row per (entity_id, date) key. -/
theorem collect_and_persist_idempotent (entities : List EntityUsage)
    (date : String) (store : List DailySnapshot)
    (hids : (entities.map (fun e => e.entity_id)).Nodup)
    (hstore : KeyUnique store) :
    collect_and_persist entities date (collect_and_persist entities date store) =
      collect_and_persist entities date store ∧
    KeyUnique (collect_and_persist entities date store) := by
  have hkeys : ((entities.map (fun e => computeSnapshot e date)).map snapKey).Nodup := by
    rw [List.map_map]
    have heq : (snapKey ∘ fun e => computeSnapshot e date) =
        (fun id => (id, date)) ∘ (fun e : EntityUsage => e.entity_id) := by
      funext e
      rfl
    rw [heq, ← List.map_map]
    apply List.Nodup.map _ hids
    intro a b hab
    exact (Prod.mk.injEq a date b date).mp hab |>.1
  simp only [collect_eq_foldl]
  constructor
  · exact foldl_upsert_absorb _ _
      (hasExactly_all_after_foldl _ store hkeys)
  · exact keyUnique_foldl_upsert _ store hstore

/-- Witness for C5: the theorem applied to two entities with distinct ids and
an empty initial store. -/
theorem collect_and_persist_idempotent_witness :
    collect_and_persist [⟨"e1", 4, 2, 5, 2⟩, ⟨"e2", 8, 1, 5, 3⟩] "2024-01-02"
        (collect_and_persist [⟨"e1", 4, 2, 5, 2⟩, ⟨"e2", 8, 1, 5, 3⟩]
          "2024-01-02" []) =
      collect_and_persist [⟨"e1", 4, 2, 5, 2⟩, ⟨"e2", 8, 1, 5, 3⟩]
        "2024-01-02" [] ∧
    KeyUnique (collect_and_persist [⟨"e1", 4, 2, 5, 2⟩, ⟨"e2", 8, 1, 5, 3⟩]
      "2024-01-02" []) :=
  collect_and_persist_idempotent [⟨"e1", 4, 2, 5, 2⟩, ⟨"e2", 8, 1, 5, 3⟩]
    "2024-01-02" [] (by simp) (by simp [KeyUnique])

/-! ## Findings and the recommendation aggregator (spec §3, §4.2, §4.3) -/

/-- Finding severity (spec §3). -/
inductive Severity where
  | high
  | medium
  | low
deriving DecidableEq

/-- Numeric rank of a severity, higher means more severe. -/
def sevRank : Severity → ℕ
  | .high => 2
  | .medium => 1
  | .low => 0

/-- A single optimization finding (spec §3): category, issue type, severity,
estimated savings percent, free-text reason. -/
structure Finding where
  category : String
  issue_type : String
  severity : Severity
  estimated_savings_percent : ℚ
  reason : String
deriving DecidableEq

/-- The display order on findings (spec §4.3): severity high→low first, then
estimated savings percent descending. -/
def displayOrder (a b : Finding) : Prop :=
  sevRank b.severity < sevRank a.severity ∨
    (sevRank a.severity = sevRank b.severity ∧
      b.estimated_savings_percent ≤ a.estimated_savings_percent)

instance : DecidableRel displayOrder := fun a b =>
  decidable_of_iff (sevRank b.severity < sevRank a.severity ∨
    (sevRank a.severity = sevRank b.severity ∧
      b.estimated_savings_percent ≤ a.estimated_savings_percent)) Iff.rfl

instance : IsTotal Finding displayOrder := by
  constructor
  intro a b
  rcases Nat.lt_trichotomy (sevRank a.severity) (sevRank b.severity) with h | h | h
  · exact Or.inr (Or.inl h)
  · rcases le_total a.estimated_savings_percent b.estimated_savings_percent with hs | hs
    · exact Or.inr (Or.inr ⟨h.symm, hs⟩)
    · exact Or.inl (Or.inr ⟨h, hs⟩)
  · exact Or.inl (Or.inl h)

instance : IsTrans Finding displayOrder := by
  constructor
  intro a b c hab hbc
  rcases hab with h1 | ⟨h1, h1s⟩ <;> rcases hbc with h2 | ⟨h2, h2s⟩
  · exact Or.inl (h2.trans h1)
  · exact Or.inl (h2 ▸ h1)
  · exact Or.inl (h1 ▸ h2)
  · exact Or.inr ⟨h1.trans h2, h2s.trans h1s⟩

/-- An entity's aggregated analysis (spec §3 EntityAnalysis). -/
structure EntityAnalysis where
  entity_id : String
  findings : List Finding
  total_potential_savings_percent : ℚ

/-- Modelled from the spec: the backend RecommendationAggregator (spec §4.3)
is absent from the source tree. It sorts the concatenated findings for
display by severity high→low then estimated savings descending, and compounds
the savings multiplicatively. -/
def aggregateFindings (entity_id : String) (findings : List Finding) :
    EntityAnalysis :=
  { entity_id := entity_id
    findings := List.insertionSort displayOrder findings
    total_potential_savings_percent :=
      compoundedSavings (findings.map (fun f => f.estimated_savings_percent)) }

/-! ## Rule evaluators (spec §4.2) -/

/-- The six evaluator categories (spec §2). -/
inductive EvalCategory where
  | sizing
  | autoscaling
  | nodeType
  | runtimeConfig
  | costInstrument
  | schedule
deriving DecidableEq

/-- A compute entity's configuration snapshot (spec §3 EntityConfig); the
fields the modelled evaluators read. -/
structure EntityConfig where
  id : String
  name : String
  worker_count : ℕ
  autoscale_min : Option ℕ
  autoscale_max : Option ℕ
  uses_spot_instances : Bool
  gpu_node : Bool
  ml_workload : Bool
  aqe_enabled : Bool
  photon_enabled : Bool
  auto_termination_minutes : Option ℕ

/-- Tunable evaluator thresholds passed in as configuration (spec §9). -/
structure Thresholds where
  large_worker_count : ℕ
  oversized_efficiency : ℚ
  high_min_workers : ℕ
  max_scale_factor : ℚ
  auto_termination_ceiling : ℕ

/-- Average efficiency score over a snapshot window; `none` when no snapshot
in the window yields a defined score (spec §4.1, §6). -/
def windowAvgEfficiency (win : List DailySnapshot) : Option ℚ :=
  let scores := win.filterMap
    (fun s => efficiencyScore s.capacity_units s.consumed_units s.uptime_hours)
  if scores.isEmpty then none
  else some (scores.sum / (scores.length : ℚ))

/-- Modelled from the spec: the Sizing evaluator (spec §4.2 table) — fires
when the fixed worker count reaches the "large" threshold and the average
efficiency is below the "oversized" threshold; severity scales inversely with
the efficiency score. -/
def evalSizing (th : Thresholds) (cfg : EntityConfig)
    (win : List DailySnapshot) : List Finding :=
  match windowAvgEfficiency win with
  | none => []
  | some eff =>
      if th.large_worker_count ≤ cfg.worker_count ∧
          eff < th.oversized_efficiency then
        [{ category := "sizing", issue_type := "oversized",
           severity := if eff < th.oversized_efficiency / 2 then .high
             else .medium,
           estimated_savings_percent := clampScore (th.oversized_efficiency - eff),
           reason := "low efficiency on a large fixed-size cluster" }]
      else []

/-- Modelled from the spec: the Autoscaling evaluator (spec §4.2 table) —
`no_autoscaling` above `high_minimum` above `wide_range` in severity. -/
def evalAutoscaling (th : Thresholds) (cfg : EntityConfig)
    (_win : List DailySnapshot) : List Finding :=
  match cfg.autoscale_min, cfg.autoscale_max with
  | some mn, some mx =>
      (if th.high_min_workers ≤ mn then
        [{ category := "autoscaling", issue_type := "high_minimum",
           severity := .medium, estimated_savings_percent := 20,
           reason := "minimum workers held high" }]
      else []) ++
      (if th.max_scale_factor * (mn : ℚ) < (mx : ℚ) then
        [{ category := "autoscaling", issue_type := "wide_range",
           severity := .low, estimated_savings_percent := 10,
           reason := "autoscale range wider than the acceptable band" }]
      else [])
  | _, _ =>
      [{ category := "autoscaling", issue_type := "no_autoscaling",
         severity := .high, estimated_savings_percent := 30,
         reason := "no autoscaling configured" }]

/-- Modelled from the spec: the NodeType evaluator (spec §4.2 table) — GPU
class on a non-accelerated workload is high severity. -/
def evalNodeType (_th : Thresholds) (cfg : EntityConfig)
    (_win : List DailySnapshot) : List Finding :=
  if cfg.gpu_node ∧ ¬cfg.ml_workload then
    [{ category := "node_type", issue_type := "gpu_on_non_ml",
       severity := .high, estimated_savings_percent := 50,
       reason := "GPU instance class for a non-accelerated workload" }]
  else []

/-- Modelled from the spec: the RuntimeConfig evaluator (spec §4.2 table) —
adaptive query execution disabled is high severity, query-acceleration engine
disabled is medium. -/
def evalRuntimeConfig (_th : Thresholds) (cfg : EntityConfig)
    (_win : List DailySnapshot) : List Finding :=
  (if ¬cfg.aqe_enabled then
    [{ category := "runtime_config", issue_type := "aqe_disabled",
       severity := .high, estimated_savings_percent := 15,
       reason := "adaptive query execution disabled" }]
  else []) ++
  (if ¬cfg.photon_enabled then
    [{ category := "runtime_config", issue_type := "photon_disabled",
       severity := .medium, estimated_savings_percent := 20,
       reason := "query-acceleration engine available but disabled" }]
  else [])

/-- Modelled from the spec: the CostInstrument evaluator (spec §4.2 table,
§8 example) — not using discounted capacity at all is high severity with
savings in the 60–70 range. -/
def evalCostInstrument (_th : Thresholds) (cfg : EntityConfig)
    (_win : List DailySnapshot) : List Finding :=
  if ¬cfg.uses_spot_instances then
    [{ category := "cost_instrument", issue_type := "no_spot",
       severity := .high, estimated_savings_percent := 65,
       reason := "fault-tolerant workload fully on on-demand capacity" }]
  else []

/-- Modelled from the spec: the Schedule evaluator (spec §4.2 table) —
auto-termination unset, or set above the "too long" ceiling. -/
def evalSchedule (th : Thresholds) (cfg : EntityConfig)
    (_win : List DailySnapshot) : List Finding :=
  match cfg.auto_termination_minutes with
  | none =>
      [{ category := "schedule", issue_type := "no_auto_termination",
         severity := .high, estimated_savings_percent := 25,
         reason := "auto-termination unset" }]
  | some m =>
      if th.auto_termination_ceiling < m then
        [{ category := "schedule", issue_type := "long_auto_termination",
           severity := .medium, estimated_savings_percent := 15,
           reason := "auto-termination above the ceiling" }]
      else []

/-- Common contract (spec §4.2): `evaluate(config, snapshots_window) ->
Finding[]`, dispatched per category; each evaluator sees only the thresholds,
the entity config and the snapshot window — never another evaluator's
findings. -/
def evaluate (cat : EvalCategory) (th : Thresholds) (cfg : EntityConfig)
    (win : List DailySnapshot) : List Finding :=
  match cat with
  | .sizing => evalSizing th cfg win
  | .autoscaling => evalAutoscaling th cfg win
  | .nodeType => evalNodeType th cfg win
  | .runtimeConfig => evalRuntimeConfig th cfg win
  | .costInstrument => evalCostInstrument th cfg win
  | .schedule => evalSchedule th cfg win

/-- Run the evaluators in the given order, attributing each category's
findings to it (spec §5: no shared state threads between evaluators). -/
def runEvaluators (order : List EvalCategory) (th : Thresholds)
    (cfg : EntityConfig) (win : List DailySnapshot) :
    List (EvalCategory × List Finding) :=
  order.map (fun c => (c, evaluate c th cfg win))

/-! ## Claim theorems (aggregator and evaluators) -/

/-- C7: for every entity analysis produced by the aggregator, the list of
findings presented for display is a permutation of the input findings sorted
by severity high→low and, within equal severity, by estimated savings percent
descending. -/
theorem aggregate_findings_sorted (entity_id : String) (findings : List Finding) :
    List.Sorted displayOrder (aggregateFindings entity_id findings).findings ∧
    List.Perm (aggregateFindings entity_id findings).findings findings := by
  constructor
  · exact List.sorted_insertionSort displayOrder findings
  · exact List.perm_insertionSort displayOrder findings

/-- C8: every evaluator is a pure function of (thresholds, config, window):
each entry of a run carries exactly that category's standalone output (so no
evaluator's result depends on any other's findings), permuting the run order
only permutes the attributed outputs without changing any of them, and a
category run alone produces exactly its own output. -/
theorem evaluators_order_independent (th : Thresholds) (cfg : EntityConfig)
    (win : List DailySnapshot) (order₁ order₂ : List EvalCategory)
    (hperm : List.Perm order₁ order₂) :
    (∀ p ∈ runEvaluators order₁ th cfg win, p.2 = evaluate p.1 th cfg win) ∧
    List.Perm (runEvaluators order₁ th cfg win) (runEvaluators order₂ th cfg win) ∧
    (∀ c, runEvaluators [c] th cfg win = [(c, evaluate c th cfg win)]) := by
  refine ⟨?_, ?_, fun c => rfl⟩
  · intro p hp
    rcases List.mem_map.mp hp with ⟨c, _, rfl⟩
    rfl
  · exact hperm.map (fun c => (c, evaluate c th cfg win))

/-- Witness for C8: the theorem applied to the full six-category order and its
reverse, on a concrete config and window; the two runs are permutations of
each other and each entry equals its category's standalone output. -/
theorem evaluators_order_independent_witness :
    List.Perm
      (runEvaluators
        [.sizing, .autoscaling, .nodeType, .runtimeConfig, .costInstrument,
         .schedule]
        ⟨10, 30, 8, 4, 120⟩
        ⟨"e1", "cluster-1", 25, none, none, false, false, false, true, true,
          some 60⟩
        [⟨"e1", "2024-01-01", 100, 22, 10, 25⟩])
      (runEvaluators
        [.schedule, .costInstrument, .runtimeConfig, .nodeType, .autoscaling,
         .sizing]
        ⟨10, 30, 8, 4, 120⟩
        ⟨"e1", "cluster-1", 25, none, none, false, false, false, true, true,
          some 60⟩
        [⟨"e1", "2024-01-01", 100, 22, 10, 25⟩]) :=
  (evaluators_order_independent ⟨10, 30, 8, 4, 120⟩
    ⟨"e1", "cluster-1", 25, none, none, false, false, false, true, true,
      some 60⟩
    [⟨"e1", "2024-01-01", 100, 22, 10, 25⟩]
    [.sizing, .autoscaling, .nodeType, .runtimeConfig, .costInstrument,
     .schedule]
    [.schedule, .costInstrument, .runtimeConfig, .nodeType, .autoscaling,
     .sizing]
    (by decide)).2.1
